import Mathlib

/-!
A verification development for the StarSync batch rating engine
(src/app.py): the rating computation, the per-track rating decision,
the sweep over libraries, the single-flight batch gate, the event-log
ring with live subscribers, the periodic scheduler, the webhook
decision, the settings-update validation and the reset-ratings
operation, shallowly embedded in Lean.

Modelling conventions: Python floats are modelled as rationals (the
source only compares, scales and clamps rating values, so the rational
model is exact); timestamps and exception messages are parameters; the
behaviour of the collaborator client (what a track fetch returns, whether a
rate call raises) is part of the input data.
-/

namespace StarSync

/-- A music track as the sweep sees it: its title, its current user
rating (none = unrated), and the behaviour of the collaborator when
track.rate is called on it (some e = the call raises exception e). -/
structure Track where
  title : String
  userRating : Option ℚ
  rateErr : Option String := none
deriving DecidableEq

/-- Python max on two numbers. -/
def pymax (a b : ℚ) : ℚ := if a ≤ b then b else a

/-- Python min on two numbers. -/
def pymin (a b : ℚ) : ℚ := if a ≤ b then a else b

/-- Python abs on a number. -/
def pyabs (q : ℚ) : ℚ := if q < 0 then -q else q

/-- Embedding of convert_to_plex_rating (src/app.py line 228).  A none
value models an input on which the Python arithmetic raises (e.g. the
configured value is None): the except branch returns 6. -/
def convert_to_plex_rating (style : String) (value : Option ℚ) : ℚ :=
  match value with
  | none => 6
  | some v =>
    if style = "1star" then (if v ≥ 1 then 10 else 0)
    else pymax 2 (pymin 10 (v / 5 * 10))

/-- The loop body of rate_tracks (src/app.py line 240) from 1-based
index idx on: returns (rated, updated, skipped, log lines).  A track
whose rate call raises is caught by the per-track except branch: an
error line is logged, no counter moves, the loop continues. -/
def rate_tracks_go (ov : Bool) (pr : ℚ) : Nat → List Track → Nat × Nat × Nat × List String
  | _, [] => (0, 0, 0, [])
  | idx, t :: rest =>
    let (r, u, s, ls) := rate_tracks_go ov pr (idx + 1) rest
    match t.userRating with
    | none =>
      match t.rateErr with
      | some e => (r, u, s, ("Error rating track " ++ t.title ++ ": " ++ e) :: ls)
      | none => (r + 1, u, s, ("[" ++ toString idx ++ "] Rated: " ++ t.title) :: ls)
    | some curr =>
      if ov = true ∧ pyabs (curr - pr) > 1 / 100 then
        match t.rateErr with
        | some e => (r, u, s, ("Error rating track " ++ t.title ++ ": " ++ e) :: ls)
        | none => (r, u + 1, s, ("[" ++ toString idx ++ "] Updated: " ++ t.title) :: ls)
      else (r, u, s + 1, ls)

/-- Embedding of rate_tracks (src/app.py line 236): the enumerate
starts at 1; the target rating is computed once from the configured
style and value. -/
def rate_tracks (style : String) (value : Option ℚ) (ov : Bool) (tracks : List Track) :
    Nat × Nat × Nat × List String :=
  rate_tracks_go ov (convert_to_plex_rating style value) 1 tracks

/-- A library handle: its title and what lib.searchTracks returns
(.error e = the fetch raises exception e). -/
structure Library where
  title : String
  fetchResult : Except String (List Track)

/-- The per-library body of the loop in rate_new_tracks
(src/app.py line 264): the log lines it emits.  A fetch error is
caught, logged and the library is skipped; an empty fetch logs a
no-tracks line; otherwise the tracks are rated and a summary line with
the three counts closes the library. -/
def process_library (style : String) (value : Option ℚ) (ov : Bool) (lib : Library) :
    List String :=
  ("Processing library: " ++ lib.title) ::
    (match lib.fetchResult with
     | .error e => ["Fetch error in " ++ lib.title ++ ": " ++ e]
     | .ok [] => ["No tracks in " ++ lib.title]
     | .ok tracks =>
       let (r, u, s, ls) := rate_tracks style value ov tracks
       ls ++ [lib.title ++ ": Rated " ++ toString r ++ ", Updated " ++ toString u ++
              ", Skipped " ++ toString s])

/-- The full sweep body of rate_new_tracks: every configured library
in order. -/
def sweep_logs (style : String) (value : Option ℚ) (ov : Bool) : List Library → List String
  | [] => []
  | l :: rest => process_library style value ov l ++ sweep_logs style value ov rest

/-- The batch gate (batch_lock, src/app.py line 100): true = held. -/
abbrev GateState := Bool

/-- batch_lock.acquire(blocking=False): (acquired?, state after). -/
def tryAcquire (g : GateState) : Bool × GateState :=
  if g then (false, g) else (true, true)

/-- batch_lock.release(). -/
def release (_ : GateState) : GateState := false

/-- Embedding of rate_new_tracks (src/app.py line 257): returns the
gate state at return and the log lines.  A failed acquire logs the
skip line and returns at once; a successful acquire runs the sweep and
the finally block releases the gate. -/
def rate_new_tracks (style : String) (value : Option ℚ) (ov : Bool) (libs : List Library)
    (g : GateState) : GateState × List String :=
  let (ok, g₁) := tryAcquire g
  if ok then (release g₁, sweep_logs style value ov libs)
  else (g₁, ["Batch already running, skipping this trigger."])

/-- The guarded region of rate_new_tracks with an arbitrary body
outcome (.error e models an exception escaping the loop body): the
finally clause releases the gate on every path, before a pending
exception propagates. -/
def run_guarded (g : GateState) (body : Except String (List String)) :
    GateState × Except String (List String) :=
  let (ok, g₁) := tryAcquire g
  if ok then
    match body with
    | .ok ls => (release g₁, .ok ls)
    | .error e => (release g₁, .error e)
  else (g₁, .ok ["Batch already running, skipping this trigger."])

/-- n consecutive tryAcquire attempts with no release in between
(the serialization of n concurrent attempts, each acquire being
atomic): (number that succeed, final gate state). -/
def tryAll (g : GateState) : Nat → Nat × GateState
  | 0 => (0, g)
  | n + 1 =>
    let (ok, g₁) := tryAcquire g
    let (c, g₂) := tryAll g₁ n
    ((if ok then 1 else 0) + c, g₂)

/-- EventLog state: the bounded ring rating_log and the registered
subscriber queues (listeners), src/app.py lines 96 to 98. -/
structure EventLog where
  ring : List String
  listeners : List (List String)
deriving DecidableEq

/-- The formatted log line from a (timestamp, text) pair. -/
def logLine (p : String × String) : String := p.1 ++ " - " ++ p.2

/-- Embedding of add_log_entry (src/app.py line 103) for one
(timestamp, text) entry: append the formatted line to the ring, pop
the oldest entry when the ring exceeds 500, then push the line onto
every registered subscriber queue. -/
def add_log_entry (p : String × String) (st : EventLog) : EventLog :=
  let l := logLine p
  let r := st.ring ++ [l]
  { ring := if r.length > 500 then r.tail else r,
    listeners := st.listeners.map (fun q => q ++ [l]) }

/-- A sequence of add_log_entry calls, oldest first. -/
def appendAll (L : List (String × String)) (st : EventLog) : EventLog :=
  L.foldl (fun s p => add_log_entry p s) st

/-- The log state at process start: empty ring, no subscribers. -/
def emptyLog : EventLog := ⟨[], []⟩

/-- Scheduler state: how many periodic-trigger loops are alive, and
whether batch_thread_stop_event is set. -/
structure SchedState where
  activeLoops : Nat
  stopRequested : Bool
deriving DecidableEq

/-- Embedding of start_batch_thread (src/app.py line 296): if a loop
is alive, set the stop event and join it (after the join the old loop
has exited); clear the event; start a new loop only when the interval
is positive, otherwise log that the thread is not started. -/
def start_batch_thread (interval : Nat) (s : SchedState) : SchedState :=
  let s₁ := if s.activeLoops > 0 then { activeLoops := 0, stopRequested := true } else s
  let s₂ := { s₁ with stopRequested := false }
  if interval > 0 then { s₂ with activeLoops := s₂.activeLoops + 1 } else s₂

/-- The loop of periodic_batch_trigger (src/app.py line 284): the
number of sweep dispatches it performs, given the value of the stop
event at the top of iteration k (stopTop k) and right after the sleep
of iteration k (stopMid k); fuel bounds how many iterations are
examined. -/
def loop_dispatches (interval : Nat) (stopTop stopMid : Nat → Bool) : Nat → Nat → Nat
  | _, 0 => 0
  | k, fuel + 1 =>
    if stopTop k then 0
    else if interval = 0 then 0
    else if stopMid k then 0
    else 1 + loop_dispatches interval stopTop stopMid (k + 1) fuel

/-- The inter-sweep wait of periodic_batch_trigger (src/app.py
line 289) is time.sleep(interval * 60): the thread wakes only after
the full duration, whatever time the stop event got set (stopSetAt in
seconds from the start of the sleep, none = never); the event is
examined only after time.sleep returns. -/
def sleep_wake_time (intervalMinutes : Nat) (_stopSetAt : Option Nat) : Nat :=
  intervalMinutes * 60

/-- Characters of a string lowered, modelling event.lower(). -/
def lowerChars (s : String) : List Char := s.data.map Char.toLower

/-- Whether hay starts with sub (character lists). -/
def startsWithChars : List Char → List Char → Bool
  | [], _ => true
  | _ :: _, [] => false
  | a :: as, b :: bs => a == b && startsWithChars as bs

/-- Python substring membership: sub in hay. -/
def hasSub (sub : List Char) : List Char → Bool
  | [] => startsWithChars sub []
  | c :: rest => startsWithChars sub (c :: rest) || hasSub sub rest

/-- What the webhook request carries: no form payload at all, a
payload on which json.loads (or field extraction) raises e, or a
parsed document with its event string and Metadata.librarySectionTitle
string. -/
inductive WebhookPayload where
  | missing
  | malformed (e : String)
  | parsed (event sec : String)

/-- Embedding of plex_webhook (src/app.py line 376): (HTTP status,
whether a sweep-trigger thread was dispatched, log lines). -/
def plex_webhook (p : WebhookPayload) (selected : List String) :
    Nat × Bool × List String :=
  match p with
  | .missing => (400, false, ["Webhook received - start", "No payload received in form data"])
  | .malformed e => (500, false, ["Webhook received - start", "Webhook error: " ++ e])
  | .parsed ev sec =>
    let logs := ["Webhook received - start", "Webhook: " ++ ev ++ " in " ++ sec]
    if hasSub "new".data (lowerChars ev) && selected.contains sec then (204, true, logs)
    else (200, false, logs)

/-- The rating part of the mutable settings: style, value, override
(TARGET_RATING_STYLE, TARGET_RATING_VALUE, OVERRIDE_RATING). -/
structure RatingConfig where
  style : String
  value : ℚ
  override : Bool
deriving DecidableEq

/-- The rating fields of one settings POST.  The value field arrives
as a string; valF and valI are the outcomes of float(val) and
int(val) on it (none = that conversion raises). -/
structure SettingsForm where
  style : Option String
  valF : Option ℚ
  valI : Option Int
  override : Option String
deriving DecidableEq

/-- The style after the style step of the settings POST handler
(src/app.py line 437): a submitted style is applied only when it is
one of the three known styles, otherwise the prior style stays. -/
def updated_style (prior : RatingConfig) (f : SettingsForm) : String :=
  match f.style with
  | some s => if s = "1star" ∨ s = "5stars" ∨ s = "5stars_half" then s else prior.style
  | none => prior.style

/-- The try block of the rating-value validation (src/app.py
line 442), evaluated against the already-updated style: some v = the
value val_f that gets assigned, none = the block raises and the except
branch logs the rejection.  1star uses float(val) and accepts [0,1];
5stars uses int(val) and accepts integers in [1,5]; 5stars_half uses
float(val) and accepts [1,5] in half steps; any other style assigns
the constant 5.0. -/
def parse_value (style : String) (f : SettingsForm) : Option ℚ :=
  if style = "1star" then
    match f.valF with
    | none => none
    | some v => if v < 0 ∨ v > 1 then none else some v
  else if style = "5stars" then
    match f.valI with
    | none => none
    | some n => if n < 1 ∨ n > 5 then none else some (n : ℚ)
  else if style = "5stars_half" then
    match f.valF with
    | none => none
    | some v => if v < 1 ∨ v > 5 ∨ (v * 2).den ≠ 1 then none else some v
  else some 5

/-- The rating part of the settings POST handler (src/app.py
line 422): the new RatingConfig and the validation-error log lines.
Style and override are applied independently of the value validation;
a rejected value keeps the prior value and logs the rejection. -/
def settings_update (prior : RatingConfig) (f : SettingsForm) : RatingConfig × List String :=
  let style₁ := updated_style prior f
  let styleLogs : List String :=
    match f.style with
    | some s => if s = "1star" ∨ s = "5stars" ∨ s = "5stars_half" then []
                else ["Invalid rating style: " ++ s]
    | none => ["Invalid rating style: None"]
  let (value₁, valueLogs) :=
    match parse_value style₁ f with
    | some v => (v, ([] : List String))
    | none => (prior.value, ["Invalid rating value submitted"])
  let override₁ := f.override == some "on"
  (⟨style₁, value₁, override₁⟩, styleLogs ++ valueLogs)

/-- The per-library loop body of reset_ratings (src/app.py line 402)
over the fetched tracks: (titles that received a rate(None) call, log
lines, pending exception).  The try wraps the whole loop, so a rate
call that raises ends the library: the failing call was issued, no
Cleared line is logged for it, and the remaining tracks are not
visited. -/
def reset_go : List Track → List String × List String × Option String
  | [] => ([], [], none)
  | t :: rest =>
    match t.userRating with
    | none => reset_go rest
    | some _ =>
      match t.rateErr with
      | some e => ([t.title], [], some e)
      | none =>
        let (cs, ls, err) := reset_go rest
        (t.title :: cs, ("Cleared: " ++ t.title) :: ls, err)

/-- One library of reset_ratings: the rate(None) call targets and the
log lines, the per-library except branch turning a fetch error or a
pending rate error into an error line. -/
def reset_library (lib : Library) : List String × List String :=
  match lib.fetchResult with
  | .error e => ([], ["Error in " ++ lib.title ++ ": " ++ e])
  | .ok tracks =>
    match reset_go tracks with
    | (cs, ls, none) => (cs, ls)
    | (cs, ls, some e) => (cs, ls ++ ["Error in " ++ lib.title ++ ": " ++ e])

/-- Embedding of get_music_lib (src/app.py line 149): resolve is the
behaviour of plex.library.section on a name (.error e = the call
raises exception e); on an error the exception is caught, the
fetch-error line is logged and None is returned. -/
def get_music_lib (resolve : String → Except String Library) (name : String) :
    Option Library × List String :=
  match resolve name with
  | .ok lib => (some lib, [])
  | .error e => (none, ["Library fetch error for " ++ name ++ ": " ++ e])

/-- Embedding of load_music_libs (src/app.py line 156): every name is
visited in order; a name that does not resolve logs the warning line
and is skipped while the remaining names are still resolved. -/
def load_music_libs (resolve : String → Except String Library) :
    List String → List Library × List String
  | [] => ([], [])
  | name :: rest =>
    let (libOpt, logs₁) := get_music_lib resolve name
    let (libs, logs₂) := load_music_libs resolve rest
    match libOpt with
    | some lib => (lib :: libs, logs₁ ++ logs₂)
    | none =>
      (libs,
       logs₁ ++ ["Warning: Library '" ++ name ++ "' not found or unavailable"] ++ logs₂)

theorem le_pymax_left (a b : ℚ) : a ≤ pymax a b := by
  unfold pymax; split_ifs with h
  · exact h
  · exact le_refl a

theorem pymax_le {a b c : ℚ} (h1 : a ≤ c) (h2 : b ≤ c) : pymax a b ≤ c := by
  unfold pymax; split_ifs <;> assumption

theorem pymin_le_left (a b : ℚ) : pymin a b ≤ a := by
  unfold pymin; split_ifs with h
  · exact le_refl a
  · exact le_of_not_le h

/-- C3: convert_to_plex_rating maps the OneStar style to 10 when the
value is at least 1 and to 0 otherwise; maps both FiveStars styles to
value/5*10 clamped to [2,10]; its result always lies in [0,10], and
for the FiveStars styles always in [2,10]; and on an input where the
computation raises (the none value) it returns 6 instead of
propagating the error. -/
theorem C3_convert_to_plex_rating_spec :
    (∀ v : ℚ, convert_to_plex_rating "1star" (some v) = if v ≥ 1 then 10 else 0) ∧
    (∀ v : ℚ, convert_to_plex_rating "5stars" (some v) = pymax 2 (pymin 10 (v / 5 * 10))) ∧
    (∀ v : ℚ, convert_to_plex_rating "5stars_half" (some v) = pymax 2 (pymin 10 (v / 5 * 10))) ∧
    (∀ (style : String) (value : Option ℚ),
       0 ≤ convert_to_plex_rating style value ∧ convert_to_plex_rating style value ≤ 10) ∧
    (∀ value : Option ℚ,
       2 ≤ convert_to_plex_rating "5stars" value ∧
       convert_to_plex_rating "5stars" value ≤ 10 ∧
       2 ≤ convert_to_plex_rating "5stars_half" value ∧
       convert_to_plex_rating "5stars_half" value ≤ 10) ∧
    (∀ style : String, convert_to_plex_rating style none = 6) := by
  have hmax2 : ∀ x : ℚ, 2 ≤ pymax 2 (pymin 10 x) := fun x => le_pymax_left 2 (pymin 10 x)
  have hmax10 : ∀ x : ℚ, pymax 2 (pymin 10 x) ≤ 10 := fun x =>
    pymax_le (by norm_num) (pymin_le_left 10 x)
  refine ⟨fun v => by simp [convert_to_plex_rating],
          fun v => by simp [convert_to_plex_rating],
          fun v => by simp [convert_to_plex_rating],
          fun style value => ?_, fun value => ?_, fun style => rfl⟩
  · match value with
    | none => exact ⟨by norm_num [convert_to_plex_rating], by norm_num [convert_to_plex_rating]⟩
    | some v =>
      by_cases h : style = "1star"
      · subst h
        simp only [convert_to_plex_rating, if_pos rfl]
        split_ifs <;> norm_num
      · simp only [convert_to_plex_rating, if_neg h]
        exact ⟨le_trans (by norm_num) (hmax2 _), hmax10 _⟩
  · match value with
    | none =>
      refine ⟨?_, ?_, ?_, ?_⟩ <;> norm_num [convert_to_plex_rating]
    | some v =>
      have h5 : convert_to_plex_rating "5stars" (some v) = pymax 2 (pymin 10 (v / 5 * 10)) := by
        simp [convert_to_plex_rating]
      have h5h : convert_to_plex_rating "5stars_half" (some v) = pymax 2 (pymin 10 (v / 5 * 10)) := by
        simp [convert_to_plex_rating]
      rw [h5, h5h]
      exact ⟨hmax2 _, hmax10 _, hmax2 _, hmax10 _⟩

theorem tryAll_held (n : Nat) : tryAll true n = (0, true) := by
  induction n with
  | zero => rfl
  | succ n ih => simp [tryAll, tryAcquire, ih]

/-- C1: single-flight mutual exclusion.  Of any serialization of
concurrent tryAcquire attempts (each acquire atomic, no release in
between) at most one succeeds, and none succeeds while the gate is
already held; an invocation whose acquire fails logs exactly
"Batch already running, skipping this trigger." and returns at once
with the gate unchanged; the gate is released on every exit path of
the guarded sweep, including an exception inside it, so a tryAcquire
following any guarded invocation succeeds. -/
theorem C1_single_flight_gate :
    (∀ n : Nat, (tryAll true n).1 = 0) ∧
    (∀ (g : GateState) (n : Nat), (tryAll g n).1 ≤ 1) ∧
    (∀ body : Except String (List String),
       run_guarded true body = (true, .ok ["Batch already running, skipping this trigger."])) ∧
    (∀ body : Except String (List String),
       (run_guarded false body).1 = false ∧
       (tryAcquire (run_guarded false body).1).1 = true) ∧
    (∀ (style : String) (value : Option ℚ) (ov : Bool) (libs : List Library),
       rate_new_tracks style value ov libs true =
         (true, ["Batch already running, skipping this trigger."]) ∧
       (rate_new_tracks style value ov libs false).1 = false ∧
       (tryAcquire (rate_new_tracks style value ov libs false).1).1 = true) := by
  refine ⟨fun n => by rw [tryAll_held], ?_, ?_, ?_, ?_⟩
  · intro g n
    match g, n with
    | true, n => rw [tryAll_held]; exact Nat.zero_le 1
    | false, 0 => exact Nat.zero_le 1
    | false, n + 1 => simp [tryAll, tryAcquire, tryAll_held]
  · intro body
    cases body <;> rfl
  · intro body
    cases body <;> exact ⟨rfl, rfl⟩
  · intro style value ov libs
    exact ⟨rfl, rfl, rfl⟩

theorem rate_go_log_count (ov : Bool) (pr : ℚ) :
    ∀ (tracks : List Track) (idx : Nat), (∀ t ∈ tracks, t.rateErr = none) →
      (rate_tracks_go ov pr idx tracks).2.2.2.length =
        (rate_tracks_go ov pr idx tracks).1 + (rate_tracks_go ov pr idx tracks).2.1
  | [], _, _ => rfl
  | t :: rest, idx, h => by
    obtain ⟨ttl, ur, te⟩ := t
    have ih := rate_go_log_count ov pr rest (idx + 1)
      (fun x hx => h x (List.mem_cons_of_mem _ hx))
    have ht : te = none := h _ (List.mem_cons_self _ rest)
    subst ht
    rcases hrec : rate_tracks_go ov pr (idx + 1) rest with ⟨r, u, s, ls⟩
    rw [hrec] at ih
    simp only at ih
    cases ur with
    | none =>
      simp [rate_tracks_go, hrec]
      omega
    | some curr =>
      simp only [rate_tracks_go, hrec]
      by_cases hc : ov = true ∧ pyabs (curr - pr) > 1 / 100
      · rw [if_pos hc]
        simp
        omega
      · rw [if_neg hc]
        simpa using ih

/-- C2: the per-track decision of rate_tracks is RATE (count rated,
one action line) iff the current rating is absent; UPDATE (count
updated, one action line) iff it is present, override is on and the
current rating differs from the target by more than 0.01; otherwise
SKIP (count skipped, no line); one log line is emitted per RATE and
per UPDATE and none per SKIP; and the 3-track example library (one
unrated track, one rated at the target, one rated differently with
override on) yields rated=1, updated=1, skipped=1 with exactly two
action lines followed by the one summary line. -/
theorem C2_per_track_decision :
    (∀ (style : String) (value : Option ℚ) (ov : Bool) (t : Track), t.rateErr = none →
       ((rate_tracks style value ov [t]).1 = 1 ↔ t.userRating = none) ∧
       ((rate_tracks style value ov [t]).2.1 = 1 ↔
         ∃ c, t.userRating = some c ∧ ov = true ∧
           pyabs (c - convert_to_plex_rating style value) > 1 / 100) ∧
       ((rate_tracks style value ov [t]).2.2.1 = 1 ↔
         ∃ c, t.userRating = some c ∧
           ¬(ov = true ∧ pyabs (c - convert_to_plex_rating style value) > 1 / 100)) ∧
       (rate_tracks style value ov [t]).1 + (rate_tracks style value ov [t]).2.1 +
         (rate_tracks style value ov [t]).2.2.1 = 1) ∧
    (∀ (style : String) (value : Option ℚ) (ov : Bool) (tracks : List Track),
       (∀ t ∈ tracks, t.rateErr = none) →
       (rate_tracks style value ov tracks).2.2.2.length =
         (rate_tracks style value ov tracks).1 + (rate_tracks style value ov tracks).2.1) ∧
    (rate_tracks "5stars" (some 4) true
       [⟨"A", none, none⟩, ⟨"B", some 8, none⟩, ⟨"C", some 4, none⟩] =
       (1, 1, 1, ["[1] Rated: A", "[3] Updated: C"])) ∧
    (process_library "5stars" (some 4) true
       ⟨"L", .ok [⟨"A", none, none⟩, ⟨"B", some 8, none⟩, ⟨"C", some 4, none⟩]⟩ =
       ["Processing library: L", "[1] Rated: A", "[3] Updated: C",
        "L: Rated 1, Updated 1, Skipped 1"]) := by
  refine ⟨?_, ?_, ?_, ?_⟩
  · intro style value ov t ht
    cases hu : t.userRating with
    | none =>
      simp [rate_tracks, rate_tracks_go, ht, hu]
    | some curr =>
      simp only [rate_tracks, rate_tracks_go, ht, hu]
      by_cases hc : ov = true ∧ pyabs (curr - convert_to_plex_rating style value) > 1 / 100
      · rw [if_pos hc]
        simp [hc.1, hc.2]
        simpa using hc.2
      · rw [if_neg hc]
        simp [hc]
        push_neg at hc
        simpa using hc
  · intro style value ov tracks h
    exact rate_go_log_count ov (convert_to_plex_rating style value) tracks 1 h
  · simp [rate_tracks, rate_tracks_go, convert_to_plex_rating]
    norm_num [pymax, pymin, pyabs]
    decide
  · simp [process_library, rate_tracks, rate_tracks_go, convert_to_plex_rating]
    norm_num [pymax, pymin, pyabs]
    decide

/-- Witness for C2: the decision theorem applied at a concrete unrated
track (RATE) and at the concrete 3-track list with no failing rate
calls. -/
theorem C2_per_track_decision_witness :
    (rate_tracks "5stars" (some 4) true [⟨"A", none, none⟩]).1 = 1 ∧
    (rate_tracks "5stars" (some 4) true
       [⟨"A", none, none⟩, ⟨"B", some 8, none⟩, ⟨"C", some 4, none⟩]).2.2.2.length =
      (rate_tracks "5stars" (some 4) true
         [⟨"A", none, none⟩, ⟨"B", some 8, none⟩, ⟨"C", some 4, none⟩]).1 +
      (rate_tracks "5stars" (some 4) true
         [⟨"A", none, none⟩, ⟨"B", some 8, none⟩, ⟨"C", some 4, none⟩]).2.1 :=
  ⟨(C2_per_track_decision.1 "5stars" (some 4) true ⟨"A", none, none⟩ rfl).1.mpr rfl,
   C2_per_track_decision.2.1 "5stars" (some 4) true
     [⟨"A", none, none⟩, ⟨"B", some 8, none⟩, ⟨"C", some 4, none⟩] (by decide)⟩

/-- C8: sweep error isolation.  A library whose name fails to resolve
logs the fetch-error line and the warning line and is skipped while
the remaining names are still resolved; a library whose track fetch
raises contributes its processing line and the fetch-error line and
the sweep continues with the remaining libraries; the sweep always
decomposes library by library, and the processing line of every
configured library appears in the sweep log, whatever failures occur;
a track whose rate call raises during a RATE application (unrated
track) contributes only an error line, leaves all three counters at
the value produced by the remaining tracks, and the loop continues
with them; and a rated track whose rate call raises does so exactly
when an UPDATE application is due (override on, gap above the
tolerance), again contributing only the error line with the counters
of the remaining tracks preserved, while a SKIP decision never issues
the failing call at all. -/
theorem C8_sweep_error_isolation :
    (∀ (style : String) (value : Option ℚ) (ov : Bool) (ttl e : String)
       (rest : List Library),
       sweep_logs style value ov (⟨ttl, .error e⟩ :: rest) =
         ("Processing library: " ++ ttl) :: ("Fetch error in " ++ ttl ++ ": " ++ e) ::
           sweep_logs style value ov rest) ∧
    (∀ (style : String) (value : Option ℚ) (ov : Bool) (l : Library)
       (rest : List Library),
       sweep_logs style value ov (l :: rest) =
         process_library style value ov l ++ sweep_logs style value ov rest) ∧
    (∀ (style : String) (value : Option ℚ) (ov : Bool) (libs : List Library),
       List.Sublist (libs.map (fun l => "Processing library: " ++ l.title))
         (sweep_logs style value ov libs)) ∧
    (∀ (ov : Bool) (pr : ℚ) (idx : Nat) (ttl e : String) (rest : List Track),
       rate_tracks_go ov pr idx (⟨ttl, none, some e⟩ :: rest) =
         ((rate_tracks_go ov pr (idx + 1) rest).1,
          (rate_tracks_go ov pr (idx + 1) rest).2.1,
          (rate_tracks_go ov pr (idx + 1) rest).2.2.1,
          ("Error rating track " ++ ttl ++ ": " ++ e) ::
            (rate_tracks_go ov pr (idx + 1) rest).2.2.2)) ∧
    (∀ (ov : Bool) (pr : ℚ) (idx : Nat) (ttl e : String) (curr : ℚ)
       (rest : List Track),
       rate_tracks_go ov pr idx (⟨ttl, some curr, some e⟩ :: rest) =
         (if ov = true ∧ pyabs (curr - pr) > 1 / 100 then
            ((rate_tracks_go ov pr (idx + 1) rest).1,
             (rate_tracks_go ov pr (idx + 1) rest).2.1,
             (rate_tracks_go ov pr (idx + 1) rest).2.2.1,
             ("Error rating track " ++ ttl ++ ": " ++ e) ::
               (rate_tracks_go ov pr (idx + 1) rest).2.2.2)
          else
            ((rate_tracks_go ov pr (idx + 1) rest).1,
             (rate_tracks_go ov pr (idx + 1) rest).2.1,
             (rate_tracks_go ov pr (idx + 1) rest).2.2.1 + 1,
             (rate_tracks_go ov pr (idx + 1) rest).2.2.2))) ∧
    (∀ (resolve : String → Except String Library) (name e : String)
       (rest : List String),
       resolve name = .error e →
       load_music_libs resolve (name :: rest) =
         ((load_music_libs resolve rest).1,
          ("Library fetch error for " ++ name ++ ": " ++ e) ::
            ("Warning: Library '" ++ name ++ "' not found or unavailable") ::
            (load_music_libs resolve rest).2)) := by
  refine ⟨fun style value ov ttl e rest => by simp [sweep_logs, process_library],
          fun style value ov l rest => rfl, ?_, ?_, ?_, ?_⟩
  · intro style value ov libs
    induction libs with
    | nil => exact List.nil_sublist _
    | cons l rest ih =>
      simp only [List.map_cons, sweep_logs, process_library, List.cons_append]
      exact List.Sublist.cons₂ _ (ih.trans (List.sublist_append_right _ _))
  · intro ov pr idx ttl e rest
    rcases hrec : rate_tracks_go ov pr (idx + 1) rest with ⟨r, u, s, ls⟩
    simp [rate_tracks_go, hrec]
  · intro ov pr idx ttl e curr rest
    rcases hrec : rate_tracks_go ov pr (idx + 1) rest with ⟨r, u, s, ls⟩
    simp only [rate_tracks_go, hrec]
  · intro resolve name e rest hres
    rcases hrec : load_music_libs resolve rest with ⟨libs, logs⟩
    simp [load_music_libs, get_music_lib, hres, hrec]

/-- Witness for C8: the resolution-failure conjunct applied at a
concrete resolver that raises on the single configured name. -/
theorem C8_sweep_error_isolation_witness :
    load_music_libs (fun _ => .error "boom") ["L"] =
      ((load_music_libs (fun _ => (.error "boom" : Except String Library)) []).1,
       ("Library fetch error for " ++ "L" ++ ": " ++ "boom") ::
         ("Warning: Library '" ++ "L" ++ "' not found or unavailable") ::
         (load_music_libs (fun _ => (.error "boom" : Except String Library)) []).2) :=
  C8_sweep_error_isolation.2.2.2.2.2 (fun _ => .error "boom") "L" "boom" [] rfl

theorem reset_go_no_fail :
    ∀ tracks : List Track, (∀ t ∈ tracks, t.rateErr = none) →
      reset_go tracks =
        ((tracks.filter (fun t => t.userRating.isSome)).map Track.title,
         (tracks.filter (fun t => t.userRating.isSome)).map
           (fun t => "Cleared: " ++ t.title),
         none)
  | [], _ => rfl
  | t :: rest, h => by
    obtain ⟨ttl, ur, te⟩ := t
    have ht : te = none := h _ (List.mem_cons_self _ _)
    subst ht
    have ih := reset_go_no_fail rest (fun x hx => h x (List.mem_cons_of_mem _ hx))
    cases ur with
    | none => simpa [reset_go] using ih
    | some c => simp [reset_go, ih]

theorem reset_go_calls_rated :
    ∀ (tracks : List Track) (c : String), c ∈ (reset_go tracks).1 →
      c ∈ (tracks.filter (fun t => t.userRating.isSome)).map Track.title
  | [], c, h => by simp [reset_go] at h
  | t :: rest, c, h => by
    obtain ⟨ttl, ur, te⟩ := t
    cases ur with
    | none =>
      simp only [reset_go] at h
      simpa using reset_go_calls_rated rest c h
    | some v =>
      cases te with
      | some e =>
        simp only [reset_go] at h
        simp only [List.mem_singleton] at h
        subst h
        simp
      | none =>
        rcases hrec : reset_go rest with ⟨cs, ls, err⟩
        simp only [reset_go, hrec] at h
        rcases List.mem_cons.mp h with rfl | hmem
        · simp
        · have := reset_go_calls_rated rest c (by rw [hrec]; exact hmem)
          simp only [List.mem_map, List.mem_filter] at this ⊢
          obtain ⟨a, ⟨ha, hs⟩, hat⟩ := this
          exact ⟨a, ⟨List.mem_cons_of_mem _ ha, hs⟩, hat⟩

/-- C10: reset-ratings issues a rate(None) call exactly for the tracks
whose current user rating is present (in order, when no call fails),
and never issues a call for a track whose rating is absent: every call
target is a present-rated track, failures included. -/
theorem C10_reset_call_targets :
    (∀ tracks : List Track, (∀ t ∈ tracks, t.rateErr = none) →
       (reset_go tracks).1 =
         (tracks.filter (fun t => t.userRating.isSome)).map Track.title ∧
       (reset_go tracks).2.1 =
         (tracks.filter (fun t => t.userRating.isSome)).map
           (fun t => "Cleared: " ++ t.title)) ∧
    (∀ (tracks : List Track) (c : String), c ∈ (reset_go tracks).1 →
       c ∈ (tracks.filter (fun t => t.userRating.isSome)).map Track.title) := by
  refine ⟨fun tracks h => ?_, reset_go_calls_rated⟩
  rw [reset_go_no_fail tracks h]
  exact ⟨rfl, rfl⟩

/-- Witness for C10: a two-track list, one rated and one unrated, with
no failing calls: exactly the rated track gets the rate(None) call. -/
theorem C10_reset_call_targets_witness :
    (reset_go [⟨"A", some 5, none⟩, ⟨"B", none, none⟩]).1 =
      (([⟨"A", some 5, none⟩, ⟨"B", none, none⟩] : List Track).filter
        (fun t => t.userRating.isSome)).map Track.title :=
  (C10_reset_call_targets.1 [⟨"A", some 5, none⟩, ⟨"B", none, none⟩] (by decide)).1

theorem appendAll_ring (L : List (String × String)) :
    ∀ st : EventLog, st.ring.length ≤ 500 →
      (appendAll L st).ring =
        (st.ring ++ L.map logLine).drop (st.ring.length + L.length - 500) := by
  induction L with
  | nil =>
    intro st h
    simp [appendAll, Nat.sub_eq_zero_of_le h]
  | cons p rest ih =>
    intro st h
    have hstep : appendAll (p :: rest) st = appendAll rest (add_log_entry p st) := rfl
    rw [hstep]
    by_cases hlen : (st.ring ++ [logLine p]).length > 500
    · have h500 : st.ring.length = 500 := by
        simp only [List.length_append, List.length_cons, List.length_nil] at hlen
        omega
      obtain ⟨a, as, hcons⟩ : ∃ a as, st.ring = a :: as := by
        match hr : st.ring with
        | [] => rw [hr] at h500; simp at h500
        | a :: as => exact ⟨a, as, rfl⟩
      have has : as.length = 499 := by
        rw [hcons] at h500; simp at h500; omega
      have hring' : (add_log_entry p st).ring = as ++ [logLine p] := by
        simp only [add_log_entry]
        rw [if_pos hlen, hcons]
        simp
      have hlen' : (add_log_entry p st).ring.length ≤ 500 := by
        rw [hring']; simp [has]
      rw [ih (add_log_entry p st) hlen', hring', hcons]
      have e1 : (as ++ [logLine p]).length + rest.length - 500 = rest.length := by
        simp only [List.length_append, List.length_cons, List.length_nil, has]
        omega
      have e2 : (a :: as).length + (p :: rest).length - 500 = rest.length + 1 := by
        simp only [List.length_cons, has]
        omega
      rw [e1, e2]
      simp [List.append_assoc]
    · have hring' : (add_log_entry p st).ring = st.ring ++ [logLine p] := by
        simp only [add_log_entry]
        rw [if_neg hlen]
      have hlen' : (add_log_entry p st).ring.length ≤ 500 := by
        rw [hring']
        simp only [List.length_append, List.length_cons, List.length_nil] at hlen ⊢
        omega
      rw [ih (add_log_entry p st) hlen', hring']
      have hamt : (st.ring ++ [logLine p]).length + rest.length - 500 =
          st.ring.length + (p :: rest).length - 500 := by
        simp only [List.length_append, List.length_cons, List.length_nil, List.length_cons]
        omega
      rw [hamt]
      simp [List.append_assoc]

theorem appendAll_listeners (L : List (String × String)) :
    ∀ st : EventLog,
      (appendAll L st).listeners = st.listeners.map (fun q => q ++ L.map logLine) := by
  induction L with
  | nil => intro st; simp [appendAll]
  | cons p rest ih =>
    intro st
    have hstep : appendAll (p :: rest) st = appendAll rest (add_log_entry p st) := rfl
    rw [hstep, ih]
    simp [add_log_entry, List.map_map, Function.comp_def, List.append_assoc]

/-- C4: EventLog append.  From the empty log, a sequence of appends
leaves in the ring exactly the formatted lines beyond the first
length - 500 (so after 600 appends exactly the most recent 500, oldest
first); and every queue registered before the appends receives all the
formatted lines in append order. -/
theorem C4_eventlog_append :
    (∀ L : List (String × String),
       (appendAll L emptyLog).ring = (L.map logLine).drop (L.length - 500)) ∧
    (∀ (L : List (String × String)) (q₀ : List String),
       (appendAll L ⟨[], [q₀]⟩).listeners = [q₀ ++ L.map logLine]) ∧
    (∀ L : List (String × String), L.length = 600 →
       (appendAll L emptyLog).ring = (L.map logLine).drop 100 ∧
       (appendAll L emptyLog).ring.length = 500) := by
  have hring : ∀ L : List (String × String),
      (appendAll L emptyLog).ring = (L.map logLine).drop (L.length - 500) := by
    intro L
    have := appendAll_ring L emptyLog (by simp [emptyLog])
    simpa [emptyLog] using this
  refine ⟨hring, ?_, ?_⟩
  · intro L q₀
    rw [appendAll_listeners]
    rfl
  · intro L h600
    refine ⟨by rw [hring, h600], ?_⟩
    rw [hring]
    simp [h600]

/-- The concrete 600-entry append sequence used as witness input. -/
def witnessEntries : List (String × String) :=
  (List.range 600).map (fun i => ("2024-01-01 00:00:00", toString i))

/-- Witness for C4: appending the concrete 600 entries leaves exactly
the most recent 500 formatted lines in the ring. -/
theorem C4_eventlog_append_witness :
    (appendAll witnessEntries emptyLog).ring = (witnessEntries.map logLine).drop 100 ∧
    (appendAll witnessEntries emptyLog).ring.length = 500 :=
  C4_eventlog_append.2.2 witnessEntries (by simp [witnessEntries])

theorem start_batch_thread_le_one (interval : Nat) (s : SchedState) :
    (start_batch_thread interval s).activeLoops ≤ 1 := by
  unfold start_batch_thread
  by_cases h : s.activeLoops > 0 <;> by_cases hi : interval > 0 <;> simp [h, hi] <;> omega

theorem sched_fold_le_one :
    ∀ (ints : List Nat) (s : SchedState), s.activeLoops ≤ 1 →
      (ints.foldl (fun st i => start_batch_thread i st) s).activeLoops ≤ 1
  | [], _, h => h
  | i :: rest, s, _ =>
    sched_fold_le_one rest _ (start_batch_thread_le_one i s)

/-- C5: scheduler state machine.  Starting with interval 0 leaves no
loop alive; after any single start call at most one loop is alive;
any sequence of start calls from the initial state keeps at most one
loop alive (each start stops and joins the previous loop before
possibly spawning a new one); and the periodic loop with interval 0
performs no dispatch at all. -/
theorem C5_scheduler_single_loop :
    (∀ s : SchedState, (start_batch_thread 0 s).activeLoops = 0) ∧
    (∀ (interval : Nat) (s : SchedState),
       (start_batch_thread interval s).activeLoops ≤ 1) ∧
    (∀ ints : List Nat,
       (ints.foldl (fun st i => start_batch_thread i st)
         (⟨0, false⟩ : SchedState)).activeLoops ≤ 1) ∧
    (∀ (stopTop stopMid : Nat → Bool) (k fuel : Nat),
       loop_dispatches 0 stopTop stopMid k fuel = 0) := by
  refine ⟨?_, start_batch_thread_le_one,
          fun ints => sched_fold_le_one ints _ (by simp), ?_⟩
  · intro s
    unfold start_batch_thread
    by_cases h : s.activeLoops > 0 <;> (simp [h]; try omega)
  · intro stopTop stopMid k fuel
    cases fuel with
    | zero => rfl
    | succ n => simp [loop_dispatches]

/-- C6 (code evaluated at the failing input): with a 60-minute
interval and the stop request arriving at second 0 of the sleep, the
loop still wakes only at second 3600 — time.sleep is not woken early
by the stop event, so the loop does wait out the full interval before
observing the stop request. -/
theorem C6_sleep_not_interruptible :
    sleep_wake_time 60 (some 0) = 3600 ∧ ¬ sleep_wake_time 60 (some 0) < 3600 := by
  exact ⟨rfl, by decide⟩

/-- C7: webhook decision table.  A missing payload yields 400 with no
dispatch; a payload on which parsing raises yields 500 with no
dispatch; a parsed payload dispatches exactly when the lowered event
string contains "new" and the section title is a selected library, in
which case the status is 204, otherwise 200. -/
theorem C7_webhook_decision :
    (∀ selected : List String,
       plex_webhook .missing selected =
         (400, false, ["Webhook received - start", "No payload received in form data"])) ∧
    (∀ (e : String) (selected : List String),
       plex_webhook (.malformed e) selected =
         (500, false, ["Webhook received - start", "Webhook error: " ++ e])) ∧
    (∀ (ev sec : String) (selected : List String),
       plex_webhook (.parsed ev sec) selected =
         ((if hasSub "new".data (lowerChars ev) && selected.contains sec then 204 else 200),
          hasSub "new".data (lowerChars ev) && selected.contains sec,
          ["Webhook received - start", "Webhook: " ++ ev ++ " in " ++ sec])) ∧
    (∀ (ev sec : String) (selected : List String),
       (plex_webhook (.parsed ev sec) selected).2.1 = true ↔
         hasSub "new".data (lowerChars ev) = true ∧ sec ∈ selected) := by
  refine ⟨fun _ => rfl, fun _ _ => rfl, ?_, ?_⟩
  · intro ev sec selected
    simp only [plex_webhook]
    split_ifs with h
    · rw [h]
    · have hf : (hasSub "new".data (lowerChars ev) && selected.contains sec) = false := by
        revert h
        cases hasSub "new".data (lowerChars ev) && selected.contains sec <;> simp
      rw [hf]
  · intro ev sec selected
    simp only [plex_webhook]
    split_ifs with h
    · rw [Bool.and_eq_true] at h
      obtain ⟨h1, h2⟩ := h
      have h2' : sec ∈ selected := by simpa using h2
      simp [h1, h2']
    · constructor
      · intro hfalse
        exact absurd hfalse (by simp)
      · rintro ⟨h1, hm⟩
        refine absurd ?_ h
        rw [Bool.and_eq_true]
        exact ⟨h1, by simpa using hm⟩

/-- Counterexample to C9 as stated.  (a) A POST whose rating value is
rejected (7, invalid after the style field switched the style to
OneStar) still changes the prior RatingConfig: the submitted style and
override take effect, so the prior config is not left unchanged.
(b) The value 0.5 violates the claimed OneStar constraint (value 0 or
1), yet the code accepts it (any float in [0,1]), so no rejection
happens there at all. -/
theorem C9_settings_validation_cex :
    (settings_update ⟨"5stars", 3, false⟩ ⟨some "1star", some 7, some 7, some "on"⟩ =
       (⟨"1star", 3, true⟩, ["Invalid rating value submitted"])) ∧
    (⟨"1star", 3, true⟩ : RatingConfig) ≠ ⟨"5stars", 3, false⟩ ∧
    (settings_update ⟨"1star", 1, false⟩ ⟨some "1star", some (1 / 2), none, none⟩ =
       (⟨"1star", 1 / 2, false⟩, [])) := by
  refine ⟨?_, by simp, ?_⟩
  · simp only [settings_update, updated_style, parse_value]
    norm_num
  · simp only [settings_update, updated_style, parse_value]
    norm_num

/-- C9 amended: a rating value on which the validation of the code for the
updated style raises (OneStar: float outside [0,1] or unparsable;
FiveStarsInteger: not an integer in [1,5]; FiveStarsHalfStep: float
outside [1,5] or not a half step) is rejected: the prior rating value
is kept and a validation error is logged; the style and override
submitted in the same update still take effect, so the whole prior
RatingConfig is unchanged exactly when the submitted style equals the
prior style and the submitted override equals the prior override. -/
theorem C9_settings_validation_amended :
    ∀ (prior : RatingConfig) (f : SettingsForm),
      parse_value (updated_style prior f) f = none →
      (settings_update prior f).1.value = prior.value ∧
      "Invalid rating value submitted" ∈ (settings_update prior f).2 ∧
      (f.style = some prior.style →
        (f.override == some "on") = prior.override →
        (settings_update prior f).1 = prior) := by
  intro prior f hnone
  refine ⟨?_, ?_, ?_⟩
  · simp [settings_update, hnone]
  · simp [settings_update, hnone]
  · intro hfs hov
    have hstyle : updated_style prior f = prior.style := by
      simp only [updated_style, hfs]
      split_ifs <;> rfl
    rw [hstyle] at hnone
    simp only [settings_update, hstyle, hnone, hov]

/-- Witness for C9 amended at the concrete example from the claim:
the value 7 submitted for the FiveStarsInteger style, with the style
and override resubmitted unchanged, is rejected, logged, and leaves
the whole RatingConfig unchanged. -/
theorem C9_settings_validation_amended_witness :
    (settings_update ⟨"5stars", 3, false⟩ ⟨some "5stars", some 7, some 7, none⟩).1 =
      ⟨"5stars", 3, false⟩ ∧
    "Invalid rating value submitted" ∈
      (settings_update ⟨"5stars", 3, false⟩ ⟨some "5stars", some 7, some 7, none⟩).2 := by
  have h := C9_settings_validation_amended ⟨"5stars", 3, false⟩
      ⟨some "5stars", some 7, some 7, none⟩ (by norm_num [parse_value, updated_style])
  exact ⟨h.2.2 rfl rfl, h.2.1⟩

end StarSync
